import Mathlib

/-!
Verification of the batch allocation and transfer engine of the selling-area
inventory application.

The Lean definitions below are a shallow embedding of the Python/SQL code:

* `subtract_inventory` embeds `DeclareHandler.subtract_inventory`
  (pages/2_Declare.py lines 33-54; the copy in pages/3_test.py lines 53-73 is
  line-for-line identical up to an `int()` cast on `itemid`): the batch rows
  are fetched with
  `SELECT expirationdate, cost_per_unit, quantity FROM inventory
   WHERE itemid=%s AND quantity > 0 ORDER BY expirationdate ASC, cost_per_unit ASC`,
  then the loop takes `take = min(left, row.quantity)`, issues the guarded
  `UPDATE`, decrements `left`, and breaks when `left <= 0`; the function
  returns `qty - left`.  Here the fetched rows are a `List BatchRow` argument
  (dates are day ordinals, costs are cents), the per-batch `UPDATE`s are
  reflected as the returned consumption plan, and the function returns the
  plan together with the final `left` (the shortfall); the Python return value
  `qty - left` is recovered from it.

Quantities are embedded as `Int` (PostgreSQL integers), never as `Nat`, so
that non-negativity is a provable property and not a typing artifact.
-/

/-- One row of the `inventory` batch fetch in `subtract_inventory`:
`expirationdate` (day ordinal), `cost_per_unit` (cents), `quantity`. -/
structure BatchRow where
  expirationdate : Nat
  cost_per_unit : Nat
  quantity : Int
deriving DecidableEq

/-- The greedy allocation walk of `DeclareHandler.subtract_inventory`:
for each fetched batch take `min(left, quantity)`, stop when `left <= 0`
or the batches are exhausted.  Returns the consumption plan (batch, take)
and the final `left` (the shortfall). -/
def subtract_inventory (qty : Int) : List BatchRow → (List (BatchRow × Int) × Int)
  | [] => ([], qty)
  | b :: bs =>
    let take := min qty b.quantity
    let left := qty - take
    if left ≤ 0 then ([(b, take)], left)
    else
      let rest := subtract_inventory left bs
      ((b, take) :: rest.1, rest.2)

/-- Total quantity taken by a consumption plan. -/
def planSum (plan : List (BatchRow × Int)) : Int :=
  (plan.map (fun p => p.2)).sum

theorem subtract_inventory_sum (qty : Int) (bs : List BatchRow) :
    planSum (subtract_inventory qty bs).1 + (subtract_inventory qty bs).2 = qty := by
  induction bs generalizing qty with
  | nil => simp [subtract_inventory, planSum]
  | cons b bs ih =>
    simp only [subtract_inventory]
    by_cases h : qty - min qty b.quantity ≤ 0
    · simp [h, planSum]
    · simp only [h, if_false, planSum, List.map_cons, List.sum_cons]
      have := ih (qty - min qty b.quantity)
      simp only [planSum] at this
      omega

/-- Claim C1: for every item (its fetched batch list) and every positive
requested quantity, the greedy allocation walk of `subtract_inventory` takes
`min(remaining_needed, batch.quantity)` from each batch in order, stops when
the remainder reaches 0 or the batches are exhausted, and the total quantity
taken by the plan plus the returned shortfall equals the requested quantity
exactly. -/
theorem C1_subtract_inventory_accounting (qty : Int) (bs : List BatchRow)
    (hq : 0 < qty) :
    planSum (subtract_inventory qty bs).1 + (subtract_inventory qty bs).2 = qty :=
  subtract_inventory_sum qty bs

/-- Concrete witness for C1: request 8 against batches of 5 and 10
(the worked example of spec §8). -/
theorem C1_witness :
    (0 : Int) < 8 ∧
      planSum (subtract_inventory 8 [⟨1, 200, 5⟩, ⟨2, 150, 10⟩]).1 +
        (subtract_inventory 8 [⟨1, 200, 5⟩, ⟨2, 150, 10⟩]).2 = 8 :=
  ⟨by decide, C1_subtract_inventory_accounting 8 [⟨1, 200, 5⟩, ⟨2, 150, 10⟩] (by decide)⟩

/-!
Ordering of batch consumption (claim C2).

`subtract_inventory` consumes the rows in the order delivered by
`ORDER BY expirationdate ASC, cost_per_unit ASC`.  The transfer pages,
however, replay an item's cost layers with
`for layer in sorted(job["layers"], key=lambda l: l["cost"])`
(pages/2_transfer_low_stock.py lines 105-117 and pages/bulk_transfer.py
lines 210-216): the list is re-sorted by `cost` alone (Python `sorted` is
stable), and the loop takes `min(remaining, layer.qty)` from each layer,
breaking when `remaining == 0`.  `sortOn` embeds a stable sort by a `Nat`
key and `walkLayers` embeds that loop.
-/

/-- Strict lexicographic order on (expirationdate, cost_per_unit). -/
def batchKeyLt (a b : BatchRow) : Prop :=
  a.expirationdate < b.expirationdate ∨
    (a.expirationdate = b.expirationdate ∧ a.cost_per_unit < b.cost_per_unit)

/-- Lexicographic order on (expirationdate, cost_per_unit). -/
def batchKeyLe (a b : BatchRow) : Prop :=
  a.expirationdate < b.expirationdate ∨
    (a.expirationdate = b.expirationdate ∧ a.cost_per_unit ≤ b.cost_per_unit)

instance (a b : BatchRow) : Decidable (batchKeyLt a b) := by
  unfold batchKeyLt; infer_instance

instance (a b : BatchRow) : Decidable (batchKeyLe a b) := by
  unfold batchKeyLe; infer_instance

/-- One record of `layers_for_barcode` as consumed by the transfer pages:
`itemid`, `expirationdate` (day ordinal), `cost` (cents), `qty`. -/
structure Layer where
  itemid : Nat
  expirationdate : Nat
  cost : Nat
  qty : Int
deriving DecidableEq

/-- Strict lexicographic order on a layer's (expirationdate, cost). -/
def layerKeyLt (a b : Layer) : Prop :=
  a.expirationdate < b.expirationdate ∨
    (a.expirationdate = b.expirationdate ∧ a.cost < b.cost)

instance (a b : Layer) : Decidable (layerKeyLt a b) := by
  unfold layerKeyLt; infer_instance

/-- Stable insertion into a list sorted by a `Nat` key (the element goes in
front of the first entry with a key not smaller than its own, as Python's
stable `sorted` would place it). -/
def insertOn {α : Type} (key : α → Nat) (x : α) : List α → List α
  | [] => [x]
  | y :: ys => if key y < key x then y :: insertOn key x ys else x :: y :: ys

/-- Stable sort by a `Nat` key, embedding `sorted(..., key=...)`. -/
def sortOn {α : Type} (key : α → Nat) : List α → List α
  | [] => []
  | x :: xs => insertOn key x (sortOn key xs)

/-- The layer-consumption loop shared by the low-stock and bulk transfer
pages: break when `remaining == 0`, otherwise take `min(remaining, qty)`
from the next layer.  Returns the consumption plan and the final
`remaining`. -/
def walkLayers : Int → List Layer → (List (Layer × Int) × Int)
  | remaining, [] => ([], remaining)
  | remaining, l :: ls =>
    if remaining = 0 then ([], remaining)
    else
      let take := min remaining l.qty
      let rest := walkLayers (remaining - take) ls
      ((l, take) :: rest.1, rest.2)

/-- The complete per-job consumption of the transfer pages' confirm loops:
the layers are sorted by `cost` alone and then walked greedily. -/
def consume_sorted_by_cost (need : Int) (layers : List Layer) : List (Layer × Int) :=
  (walkLayers need (sortOn (fun l => l.cost) layers)).1

/-- Total quantity a plan takes from a given layer. -/
def layerTaken (l : Layer) : List (Layer × Int) → Int
  | [] => 0
  | p :: ps => (if p.1 = l then p.2 else 0) + layerTaken l ps

/-- Total quantity a plan takes from a given batch row. -/
def batchTaken (b : BatchRow) : List (BatchRow × Int) → Int
  | [] => 0
  | p :: ps => (if p.1 = b then p.2 else 0) + batchTaken b ps

/-- The ordering property claimed for an allocation: the plan consumes the
available layers in non-decreasing (expirationdate, cost) order, and no
layer is consumed while a strictly earlier-expiring (or equally expiring and
cheaper) available layer is left with remaining quantity. -/
def expiryCostOrderRespected (layers : List Layer) (plan : List (Layer × Int)) : Prop :=
  (plan.map (fun p => p.1)).Pairwise (fun a b => ¬ layerKeyLt b a) ∧
    ∀ p ∈ plan, 0 < p.2 → ∀ l ∈ layers, layerKeyLt l p.1 → layerTaken l plan = l.qty

theorem subtract_inventory_cons_stop (qty : Int) (b : BatchRow) (bs : List BatchRow)
    (h : qty - min qty b.quantity ≤ 0) :
    subtract_inventory qty (b :: bs) =
      ([(b, min qty b.quantity)], qty - min qty b.quantity) := by
  simp [subtract_inventory, h]

theorem subtract_inventory_cons_go (qty : Int) (b : BatchRow) (bs : List BatchRow)
    (h : ¬ qty - min qty b.quantity ≤ 0) :
    subtract_inventory qty (b :: bs) =
      ((b, min qty b.quantity) :: (subtract_inventory (qty - min qty b.quantity) bs).1,
        (subtract_inventory (qty - min qty b.quantity) bs).2) := by
  simp [subtract_inventory, h]

theorem batchKeyLt_irrefl (a : BatchRow) : ¬ batchKeyLt a a := by
  unfold batchKeyLt; omega

theorem batchKeyLt_asymm (a b : BatchRow) (h1 : batchKeyLt a b) (h2 : batchKeyLt b a) :
    False := by
  unfold batchKeyLt at h1 h2; omega

theorem subtract_inventory_plan_sublist (qty : Int) (bs : List BatchRow) :
    ((subtract_inventory qty bs).1.map (fun p => p.1)).Sublist bs := by
  induction bs generalizing qty with
  | nil => simp [subtract_inventory]
  | cons b bs ih =>
    by_cases h : qty - min qty b.quantity ≤ 0
    · rw [subtract_inventory_cons_stop qty b bs h]
      simpa using (List.nil_sublist bs).cons₂ b
    · rw [subtract_inventory_cons_go qty b bs h]
      simpa using (ih (qty - min qty b.quantity)).cons₂ b

theorem batchTaken_eq_zero (b : BatchRow) (plan : List (BatchRow × Int))
    (h : ∀ p ∈ plan, p.1 ≠ b) : batchTaken b plan = 0 := by
  induction plan with
  | nil => rfl
  | cons p ps ih =>
    have hp : p.1 ≠ b := h p (List.mem_cons_self p ps)
    simp only [batchTaken, if_neg hp, zero_add]
    exact ih fun q hq => h q (List.mem_cons_of_mem p hq)

theorem subtract_inventory_no_skip (qty : Int) (bs : List BatchRow)
    (hs : bs.Pairwise batchKeyLt) :
    ∀ p ∈ (subtract_inventory qty bs).1, ∀ b ∈ bs, batchKeyLt b p.1 →
      batchTaken b (subtract_inventory qty bs).1 = b.quantity := by
  induction bs generalizing qty with
  | nil => simp [subtract_inventory]
  | cons hd tl ih =>
    rcases List.pairwise_cons.mp hs with ⟨hhd, htl⟩
    by_cases h : qty - min qty hd.quantity ≤ 0
    · rw [subtract_inventory_cons_stop qty hd tl h]
      intro p hp b hb hlt
      rcases List.mem_singleton.mp hp with rfl
      rcases List.mem_cons.mp hb with rfl | hb
      · exact absurd hlt (batchKeyLt_irrefl b)
      · exact absurd hlt fun hlt => batchKeyLt_asymm hd b (hhd b hb) hlt
    · have htake : min qty hd.quantity = hd.quantity := by
        rcases le_total qty hd.quantity with h1 | h1
        · rw [min_eq_left h1] at h; omega
        · exact min_eq_right h1
      rw [subtract_inventory_cons_go qty hd tl h, htake]
      have hplan_tl : ∀ q ∈ (subtract_inventory (qty - hd.quantity) tl).1,
          q.1 ∈ tl := by
        intro q hq
        exact (subtract_inventory_plan_sublist (qty - hd.quantity) tl).subset
          (List.mem_map_of_mem (fun p => p.1) hq)
      have hhd_not : ∀ q ∈ (subtract_inventory (qty - hd.quantity) tl).1,
          q.1 ≠ hd := by
        intro q hq heq
        exact batchKeyLt_irrefl hd (heq ▸ hhd q.1 (hplan_tl q hq))
      intro p hp b hb hlt
      rcases List.mem_cons.mp hp with rfl | hp
      · -- the consumed head: no strictly smaller batch exists in the fetch
        rcases List.mem_cons.mp hb with rfl | hb
        · exact absurd hlt (batchKeyLt_irrefl b)
        · exact absurd hlt fun hlt => batchKeyLt_asymm hd b (hhd b hb) hlt
      · rcases List.mem_cons.mp hb with rfl | hb
        · -- b is the fully drained head
          have hz : batchTaken b (subtract_inventory (qty - b.quantity) tl).1 = 0 :=
            batchTaken_eq_zero b _ hhd_not
          simp [batchTaken, hz]
        · -- b sits in the tail; use the induction hypothesis
          have hne : hd ≠ b := by
            intro heq
            exact batchKeyLt_irrefl hd (heq ▸ hhd b hb)
          have := ih (qty - hd.quantity) htl p hp b hb hlt
          simp only [batchTaken, if_neg hne, zero_add]
          exact this

theorem mem_insertOn {α : Type} (key : α → Nat) (x a : α) (l : List α) :
    a ∈ insertOn key x l ↔ a = x ∨ a ∈ l := by
  induction l with
  | nil => simp [insertOn]
  | cons y ys ih =>
    by_cases h : key y < key x <;> simp [insertOn, h, ih] <;> tauto

theorem insertOn_pairwise {α : Type} (key : α → Nat) (x : α) (l : List α)
    (hl : l.Pairwise (fun a b => key a ≤ key b)) :
    (insertOn key x l).Pairwise (fun a b => key a ≤ key b) := by
  induction l with
  | nil => simp [insertOn]
  | cons y ys ih =>
    rcases List.pairwise_cons.mp hl with ⟨hy, hys⟩
    by_cases h : key y < key x
    · simp only [insertOn, if_pos h]
      refine List.pairwise_cons.mpr ⟨?_, ih hys⟩
      intro a ha
      rcases (mem_insertOn key x a ys).mp ha with rfl | ha
      · exact Nat.le_of_lt h
      · exact hy a ha
    · simp only [insertOn, if_neg h]
      refine List.pairwise_cons.mpr ⟨?_, hl⟩
      intro a ha
      rcases List.mem_cons.mp ha with rfl | ha
      · exact Nat.le_of_not_lt h
      · exact le_trans (Nat.le_of_not_lt h) (hy a ha)

theorem sortOn_pairwise {α : Type} (key : α → Nat) (l : List α) :
    (sortOn key l).Pairwise (fun a b => key a ≤ key b) := by
  induction l with
  | nil => simp [sortOn]
  | cons x xs ih => exact insertOn_pairwise key x _ ih

theorem insertOn_perm {α : Type} (key : α → Nat) (x : α) (l : List α) :
    (insertOn key x l).Perm (x :: l) := by
  induction l with
  | nil => simp [insertOn]
  | cons y ys ih =>
    by_cases h : key y < key x
    · simp only [insertOn, if_pos h]
      exact (ih.cons y).trans (List.Perm.swap x y ys)
    · simp only [insertOn, if_neg h]
      exact List.Perm.refl _

theorem sortOn_perm {α : Type} (key : α → Nat) (l : List α) :
    (sortOn key l).Perm l := by
  induction l with
  | nil => simp [sortOn]
  | cons x xs ih => exact (insertOn_perm key x _).trans (ih.cons x)

theorem walkLayers_plan_sublist (remaining : Int) (ls : List Layer) :
    ((walkLayers remaining ls).1.map (fun p => p.1)).Sublist ls := by
  induction ls generalizing remaining with
  | nil => simp [walkLayers]
  | cons l ls ih =>
    by_cases h : remaining = 0
    · simp [walkLayers, h]
    · simp only [walkLayers, if_neg h, List.map_cons]
      exact (ih (remaining - min remaining l.qty)).cons₂ l

theorem batchKeyLt_to_le (a b : BatchRow) (h : batchKeyLt a b) : batchKeyLe a b := by
  unfold batchKeyLt at h; unfold batchKeyLe; omega

/-- Claim C2 (amended): `subtract_inventory` consumes batches in
non-decreasing (expirationdate, cost_per_unit) order and fully drains every
strictly earlier/cheaper fetched batch before (or, being the last one
touched, instead of) taking from a later one; the transfer-page confirm
loops, which re-sort the layers by `cost` alone, guarantee consumption in
non-decreasing unit cost only. -/
theorem C2_consumption_order_amended :
    (∀ (qty : Int) (bs : List BatchRow), bs.Pairwise batchKeyLt →
      ((subtract_inventory qty bs).1.map (fun p => p.1)).Pairwise batchKeyLe ∧
        ∀ p ∈ (subtract_inventory qty bs).1, ∀ b ∈ bs, batchKeyLt b p.1 →
          batchTaken b (subtract_inventory qty bs).1 = b.quantity) ∧
    ∀ (need : Int) (layers : List Layer),
      ((consume_sorted_by_cost need layers).map (fun p => p.1)).Pairwise
        (fun a b => a.cost ≤ b.cost) := by
  constructor
  · intro qty bs hs
    refine ⟨?_, subtract_inventory_no_skip qty bs hs⟩
    exact (List.Pairwise.sublist (subtract_inventory_plan_sublist qty bs) hs).imp
      fun h => batchKeyLt_to_le _ _ h
  · intro need layers
    exact List.Pairwise.sublist
      (walkLayers_plan_sublist need (sortOn (fun l => l.cost) layers))
      (sortOn_pairwise (fun l => l.cost) layers)

/-- Layers of one item as the bulk/low-stock confirm loops see them: the
earlier-expiring layer (day 1) costs 2.00, the later-expiring layer (day 5)
costs 1.50. -/
def demoLayers : List Layer := [⟨1, 1, 200, 5⟩, ⟨1, 5, 150, 5⟩]

/-- Counterexample to claim C2 as stated: the confirm loops of
2_transfer_low_stock.py / bulk_transfer.py sort by cost alone, so a request
for 3 units consumes the later-expiring (day 5) cheap layer while the
earlier-expiring (day 1) layer keeps its full quantity of 5. -/
theorem C2_counterexample :
    ¬ expiryCostOrderRespected demoLayers (consume_sorted_by_cost 3 demoLayers) := by
  intro hresp
  have hplan : consume_sorted_by_cost 3 demoLayers = [(⟨1, 5, 150, 5⟩, 3)] := by decide
  have h2 := hresp.2 (⟨1, 5, 150, 5⟩, 3)
    (by rw [hplan]; exact List.mem_singleton.mpr rfl) (by decide)
    ⟨1, 1, 200, 5⟩ (by decide) (by decide)
  rw [hplan] at h2
  exact absurd h2 (by decide)

/-- Concrete witness for the amended C2: a strictly (expiry, cost)-sorted
two-batch fetch yields a plan sorted the same way. -/
theorem C2_witness :
    List.Pairwise batchKeyLt [(⟨1, 200, 5⟩ : BatchRow), ⟨2, 150, 10⟩] ∧
      ((subtract_inventory 20 [(⟨1, 200, 5⟩ : BatchRow), ⟨2, 150, 10⟩]).1.map
        (fun p => p.1)).Pairwise batchKeyLe :=
  ⟨by decide,
    (C2_consumption_order_amended.1 20 [⟨1, 200, 5⟩, ⟨2, 150, 10⟩] (by decide)).1⟩

/-!
The two stock ledgers and the audit trail (claims C3, C4, C5, C10).

`move_layer` (pages/2_low_stock_transfer.py lines 37-63; the copies in
pages/1_Stock_Refill.py lines 128-145 and pages/2_stock_map.py are
identical) issues three `execute_command` calls.  Each call goes through
`DatabaseManager._execute` (db_handler.py lines 160-183), which commits
after every single statement, so the three writes are three separate
transactions.  `ShelfHandler.transfer_from_inventory`
(selling_area/shelf_handler.py lines 147-211) instead performs the
validation, the guarded decrement with a rowcount check, and the
`add_to_shelf` upsert/log on one cursor inside a single `with self.conn:`
block, so any raised error rolls the whole transfer back.

Statement failures are injected explicitly: `failAt = some i` makes the
`i`-th SQL statement of the method raise.  `EntriesOutcome` models the
outcome of the `INSERT INTO shelfentries` audit statement, whose
`DatabaseError` is caught in `add_to_shelf` and swallowed exactly when
`sqlstate == "42501"` (insufficient privilege).
-/

/-- A row of the `inventory` table. -/
structure InvRow where
  itemid : Nat
  expirationdate : Nat
  cost_per_unit : Nat
  quantity : Int
deriving DecidableEq

/-- A row of the `shelf` table; (itemid, expirationdate, cost_per_unit,
locid) is unique. -/
structure ShelfRow where
  itemid : Nat
  expirationdate : Nat
  cost_per_unit : Nat
  locid : String
  quantity : Int
deriving DecidableEq

/-- A row of the append-only `shelfentries` audit table. -/
structure ShelfEntryRow where
  itemid : Nat
  expirationdate : Nat
  quantity : Int
  createdby : String
  locid : String
deriving DecidableEq

/-- The persisted state touched by a transfer. -/
structure DBState where
  inventory : List InvRow
  shelf : List ShelfRow
  shelfentries : List ShelfEntryRow
deriving DecidableEq

/-- The keyword arguments of `move_layer` / `transfer_from_inventory`
(`by` is a Lean keyword, so the acting user is `createdby`). -/
structure TransferParams where
  itemid : Nat
  expiration : Nat
  qty : Int
  cost : Nat
  locid : String
  createdby : String
deriving DecidableEq

/-- Outcome of the `INSERT INTO shelfentries` audit statement: success or a
`DatabaseError` carrying its sqlstate. -/
inductive EntriesOutcome where
  | ok : EntriesOutcome
  | err : String → EntriesOutcome
deriving DecidableEq

/-- `UPDATE inventory SET quantity = quantity - %s WHERE itemid=%s AND
expirationdate=%s AND cost_per_unit=%s AND quantity >= %s`: every matching
row passing the guard is decremented; others are untouched. -/
def invDecrement (itemid exp cost : Nat) (qty : Int) (inv : List InvRow) :
    List InvRow :=
  inv.map fun r =>
    if r.itemid = itemid ∧ r.expirationdate = exp ∧ r.cost_per_unit = cost ∧
        qty ≤ r.quantity
    then { r with quantity := r.quantity - qty } else r

/-- `cur.rowcount` of the guarded decrement: how many rows it affected. -/
def invDecrementCount (itemid exp cost : Nat) (qty : Int) (inv : List InvRow) :
    Nat :=
  (inv.filter fun r =>
    decide (r.itemid = itemid ∧ r.expirationdate = exp ∧ r.cost_per_unit = cost ∧
      qty ≤ r.quantity)).length

/-- `INSERT INTO shelf ... ON CONFLICT (itemid, expirationdate,
cost_per_unit, locid) DO UPDATE SET quantity = shelf.quantity +
EXCLUDED.quantity`: merge into the (unique) conflicting row, else append a
new row. -/
def shelfUpsert (itemid exp cost : Nat) (locid : String) (qty : Int) :
    List ShelfRow → List ShelfRow
  | [] => [⟨itemid, exp, cost, locid, qty⟩]
  | r :: rs =>
    if r.itemid = itemid ∧ r.expirationdate = exp ∧ r.cost_per_unit = cost ∧
        r.locid = locid
    then { r with quantity := r.quantity + qty } :: rs
    else r :: shelfUpsert itemid exp cost locid qty rs

/-- `BarcodeShelfHandler.move_layer`: guarded inventory decrement, shelf
upsert, audit insert — three auto-committed statements; a failing statement
aborts the method but keeps the commits already made.  No rowcount check
follows the decrement.  The boolean is `true` when the method ran to
completion. -/
def move_layer (p : TransferParams) (failAt : Option (Fin 3)) (s : DBState) :
    DBState × Bool :=
  if failAt = some 0 then (s, false)
  else
    let s1 : DBState :=
      { s with inventory := invDecrement p.itemid p.expiration p.cost p.qty s.inventory }
    if failAt = some 1 then (s1, false)
    else
      let s2 : DBState :=
        { s1 with shelf := shelfUpsert p.itemid p.expiration p.cost p.locid p.qty s1.shelf }
      if failAt = some 2 then (s2, false)
      else
        ({ s2 with shelfentries :=
            s2.shelfentries ++ [⟨p.itemid, p.expiration, p.qty, p.createdby, p.locid⟩] },
          true)

/-- `ShelfHandler.add_to_shelf` on its own cursor: shelf upsert, then the
audit insert; a `DatabaseError` with sqlstate 42501 on the audit insert is
swallowed and the commit still happens, any other sqlstate re-raises before
the commit (so nothing persists). -/
def add_to_shelf (itemid exp : Nat) (qty : Int) (created_by : String)
    (cost : Nat) (locid : String) (entriesOutcome : EntriesOutcome)
    (s : DBState) : Except String DBState :=
  let s1 : DBState := { s with shelf := shelfUpsert itemid exp cost locid qty s.shelf }
  match entriesOutcome with
  | .ok => .ok { s1 with shelfentries :=
      s1.shelfentries ++ [⟨itemid, exp, qty, created_by, locid⟩] }
  | .err sqlstate => if sqlstate = "42501" then .ok s1 else .error sqlstate

/-- `ShelfHandler.transfer_from_inventory`: one transaction.  SELECT ... FOR
UPDATE validates the available quantity of the exact layer, the guarded
decrement must affect at least one row (`cur.rowcount == 0` raises), then
`add_to_shelf` reuses the same cursor (`layerQty` is the SELECT ... FOR UPDATE result, `fetchone` on the exact layer key).  Any raised error — an injected
statement failure, the validation, the rowcount guard, or a non-42501
failure of the audit insert — rolls the entire transaction back. -/
def layerQty (itemid exp cost : Nat) (inv : List InvRow) : Int :=
  ((inv.find? fun r =>
      decide (r.itemid = itemid ∧ r.expirationdate = exp ∧ r.cost_per_unit = cost)).map
    (fun r => r.quantity)).getD 0

def transfer_from_inventory (p : TransferParams) (entriesOutcome : EntriesOutcome)
    (failAt : Option (Fin 3)) (s : DBState) : DBState × Bool :=
  if failAt ≠ none then (s, false)
  else
    if layerQty p.itemid p.expiration p.cost s.inventory < p.qty then (s, false)
    else if invDecrementCount p.itemid p.expiration p.cost p.qty s.inventory = 0 then
      (s, false)
    else
      match add_to_shelf p.itemid p.expiration p.qty p.createdby p.cost p.locid
        entriesOutcome
        { s with inventory := invDecrement p.itemid p.expiration p.cost p.qty s.inventory } with
      | .ok s2 => (s2, true)
      | .error _ => (s, false)

/-- A state with one inventory batch of 10 units of item 1. -/
def demoState10 : DBState := ⟨[⟨1, 10, 100, 10⟩], [], []⟩

/-- A transfer request of 4 units of that layer to shelf location A. -/
def demoParams4 : TransferParams := ⟨1, 10, 4, 100, "A", "tester"⟩

/-- Counterexample to claim C3 as stated: when the second statement of
`move_layer` (the shelf upsert) fails, the already-committed inventory
decrement stays persisted — the three writes are not one all-or-nothing
unit. -/
theorem C3_counterexample :
    (move_layer demoParams4 (some 1) demoState10).2 = false ∧
      (move_layer demoParams4 (some 1) demoState10).1.inventory =
        [⟨1, 10, 100, 6⟩] ∧
      (move_layer demoParams4 (some 1) demoState10).1 ≠ demoState10 := by
  decide

/-- Claim C3 (amended): `ShelfHandler.transfer_from_inventory` is
all-or-nothing — whenever it reports failure the state is untouched, and on
success with audit privilege the guarded decrement, the shelf upsert and
the audit row all land together.  `move_layer`, by contrast, commits each
of its three statements separately (see `C3_counterexample`), and inside
`transfer_from_inventory` a 42501 permission failure of the audit insert is
swallowed rather than rolled back (claim C10). -/
theorem C3_transfer_atomicity_amended (p : TransferParams)
    (eo : EntriesOutcome) (failAt : Option (Fin 3)) (s : DBState) :
    ((transfer_from_inventory p eo failAt s).2 = false →
      (transfer_from_inventory p eo failAt s).1 = s) ∧
    ((transfer_from_inventory p eo failAt s).2 = true → eo = .ok →
      (transfer_from_inventory p eo failAt s).1 =
        { inventory := invDecrement p.itemid p.expiration p.cost p.qty s.inventory,
          shelf := shelfUpsert p.itemid p.expiration p.cost p.locid p.qty s.shelf,
          shelfentries := s.shelfentries ++
            [⟨p.itemid, p.expiration, p.qty, p.createdby, p.locid⟩] }) := by
  by_cases hf : failAt = none
  case neg =>
    refine ⟨fun _ => ?_, fun hok _ => ?_⟩
    · simp [transfer_from_inventory, hf]
    · exfalso; simp [transfer_from_inventory, hf] at hok
  case pos =>
    subst hf
    by_cases h1 : layerQty p.itemid p.expiration p.cost s.inventory < p.qty
    · refine ⟨fun _ => ?_, fun hok _ => ?_⟩
      · simp [transfer_from_inventory, h1]
      · exfalso; simp [transfer_from_inventory, h1] at hok
    · by_cases h2 : invDecrementCount p.itemid p.expiration p.cost p.qty s.inventory = 0
      · refine ⟨fun _ => ?_, fun hok _ => ?_⟩
        · simp [transfer_from_inventory, h1, h2]
        · exfalso; simp [transfer_from_inventory, h1, h2] at hok
      · cases eo with
        | ok =>
          refine ⟨fun hfail => ?_, fun _ _ => ?_⟩
          · exfalso
            simp [transfer_from_inventory, add_to_shelf, h1, h2] at hfail
          · simp [transfer_from_inventory, add_to_shelf, h1, h2]
        | err st =>
          by_cases h42 : st = "42501"
          · refine ⟨fun hfail => ?_, fun _ heo => ?_⟩
            · exfalso
              simp [transfer_from_inventory, add_to_shelf, h1, h2, h42] at hfail
            · exact absurd heo (by simp)
          · refine ⟨fun _ => ?_, fun hok _ => ?_⟩
            · simp [transfer_from_inventory, add_to_shelf, h1, h2, h42]
            · exfalso
              simp [transfer_from_inventory, add_to_shelf, h1, h2, h42] at hok

/-- Concrete witness for the amended C3: a failure injected into the first
statement of `transfer_from_inventory` leaves the demo state untouched. -/
theorem C3_witness :
    (transfer_from_inventory demoParams4 .ok (some 0) demoState10).2 = false ∧
      (transfer_from_inventory demoParams4 .ok (some 0) demoState10).1 = demoState10 :=
  ⟨by decide,
    (C3_transfer_atomicity_amended demoParams4 .ok (some 0) demoState10).1 (by decide)⟩

/-- A state whose only batch of item 1 holds 3 units. -/
def demoState3 : DBState := ⟨[⟨1, 10, 100, 3⟩], [], []⟩

/-- A transfer request of 5 units of that layer — more than is available. -/
def demoParams5 : TransferParams := ⟨1, 10, 5, 100, "A", "tester"⟩

/-- Claim C4, evaluated at its failing input: moving 5 units of a layer that
only holds 3 through `move_layer` makes the guarded decrement match zero
rows (inventory is unchanged), yet the shelf upsert still lands 5 units and
the method completes as a success — the conservation law is broken and
stock is created from nothing. -/
theorem C4_move_layer_breaks_conservation :
    invDecrementCount 1 10 100 5 demoState3.inventory = 0 ∧
      (move_layer demoParams5 none demoState3).2 = true ∧
      (move_layer demoParams5 none demoState3).1.inventory = demoState3.inventory ∧
      (move_layer demoParams5 none demoState3).1.shelf = [⟨1, 10, 100, "A", 5⟩] := by
  decide

/-- Counterexample to claim C5 as stated: in `move_layer` a failed
decrement guard (zero rows affected) does not fail the transfer — the
method still reports completion and still applies the shelf increment, so
"the whole transfer fails with no partial application" is false. -/
theorem C5_counterexample :
    invDecrementCount 1 10 100 5 demoState3.inventory = 0 ∧
      (move_layer demoParams5 none demoState3).2 = true ∧
      (move_layer demoParams5 none demoState3).1.shelf ≠ demoState3.shelf := by
  decide

theorem invDecrement_nonneg (itemid exp cost : Nat) (qty : Int)
    (inv : List InvRow) (h : ∀ r ∈ inv, 0 ≤ r.quantity) :
    ∀ r ∈ invDecrement itemid exp cost qty inv, 0 ≤ r.quantity := by
  intro r hr
  rcases List.mem_map.mp hr with ⟨r0, hr0, rfl⟩
  by_cases hc : r0.itemid = itemid ∧ r0.expirationdate = exp ∧
      r0.cost_per_unit = cost ∧ qty ≤ r0.quantity
  · simp only [if_pos hc]
    omega
  · simp only [if_neg hc]
    exact h r0 hr0

theorem shelfUpsert_nonneg (itemid exp cost : Nat) (locid : String) (qty : Int)
    (rows : List ShelfRow) (hq : 0 ≤ qty) (h : ∀ r ∈ rows, 0 ≤ r.quantity) :
    ∀ r ∈ shelfUpsert itemid exp cost locid qty rows, 0 ≤ r.quantity := by
  induction rows with
  | nil =>
    intro r hr
    rcases List.mem_singleton.mp hr with rfl
    exact hq
  | cons r0 rs ih =>
    intro r hr
    by_cases hc : r0.itemid = itemid ∧ r0.expirationdate = exp ∧
        r0.cost_per_unit = cost ∧ r0.locid = locid
    · rw [shelfUpsert, if_pos hc] at hr
      rcases List.mem_cons.mp hr with rfl | hr
      · have := h r0 (List.mem_cons_self r0 rs)
        simp only
        omega
      · exact h r (List.mem_cons_of_mem r0 hr)
    · rw [shelfUpsert, if_neg hc] at hr
      rcases List.mem_cons.mp hr with rfl | hr
      · exact h r (List.mem_cons_self r rs)
      · exact ih (fun q hq2 => h q (List.mem_cons_of_mem r0 hq2)) r hr

theorem move_layer_nonneg (p : TransferParams) (failAt : Option (Fin 3))
    (s : DBState) (hq : 0 ≤ p.qty)
    (hinv : ∀ r ∈ s.inventory, 0 ≤ r.quantity)
    (hshelf : ∀ r ∈ s.shelf, 0 ≤ r.quantity) :
    (∀ r ∈ (move_layer p failAt s).1.inventory, 0 ≤ r.quantity) ∧
      (∀ r ∈ (move_layer p failAt s).1.shelf, 0 ≤ r.quantity) := by
  have hinv2 := invDecrement_nonneg p.itemid p.expiration p.cost p.qty s.inventory hinv
  have hsh2 := shelfUpsert_nonneg p.itemid p.expiration p.cost p.locid p.qty s.shelf hq hshelf
  rcases failAt with _ | f
  · exact ⟨by simpa [move_layer] using hinv2, by simpa [move_layer] using hsh2⟩
  · fin_cases f
    · exact ⟨by simpa [move_layer] using hinv, by simpa [move_layer] using hshelf⟩
    · exact ⟨by simpa [move_layer] using hinv2, by simpa [move_layer] using hshelf⟩
    · exact ⟨by simpa [move_layer] using hinv2, by simpa [move_layer] using hsh2⟩

theorem transfer_from_inventory_nonneg (p : TransferParams) (eo : EntriesOutcome)
    (failAt : Option (Fin 3)) (s : DBState) (hq : 0 ≤ p.qty)
    (hinv : ∀ r ∈ s.inventory, 0 ≤ r.quantity)
    (hshelf : ∀ r ∈ s.shelf, 0 ≤ r.quantity) :
    (∀ r ∈ (transfer_from_inventory p eo failAt s).1.inventory, 0 ≤ r.quantity) ∧
      (∀ r ∈ (transfer_from_inventory p eo failAt s).1.shelf, 0 ≤ r.quantity) := by
  have hinv2 := invDecrement_nonneg p.itemid p.expiration p.cost p.qty s.inventory hinv
  have hsh2 := shelfUpsert_nonneg p.itemid p.expiration p.cost p.locid p.qty s.shelf hq hshelf
  by_cases hf : failAt = none
  · subst hf
    by_cases h1 : layerQty p.itemid p.expiration p.cost s.inventory < p.qty
    · exact ⟨by simpa [transfer_from_inventory, h1] using hinv,
        by simpa [transfer_from_inventory, h1] using hshelf⟩
    · by_cases h2 : invDecrementCount p.itemid p.expiration p.cost p.qty s.inventory = 0
      · exact ⟨by simpa [transfer_from_inventory, h1, h2] using hinv,
          by simpa [transfer_from_inventory, h1, h2] using hshelf⟩
      · cases eo with
        | ok =>
          exact ⟨by simpa [transfer_from_inventory, add_to_shelf, h1, h2] using hinv2,
            by simpa [transfer_from_inventory, add_to_shelf, h1, h2] using hsh2⟩
        | err st =>
          by_cases h42 : st = "42501"
          · exact ⟨by simpa [transfer_from_inventory, add_to_shelf, h1, h2, h42] using hinv2,
              by simpa [transfer_from_inventory, add_to_shelf, h1, h2, h42] using hsh2⟩
          · exact ⟨by simpa [transfer_from_inventory, add_to_shelf, h1, h2, h42] using hinv,
              by simpa [transfer_from_inventory, add_to_shelf, h1, h2, h42] using hshelf⟩
  · exact ⟨by simpa [transfer_from_inventory, hf] using hinv,
      by simpa [transfer_from_inventory, hf] using hshelf⟩

/-- Claim C5 (amended): every inventory decrement is guarded by
`quantity >= quantity_taken` at write time, so no transfer operation ever
drives an inventory or shelf quantity negative; however, when the guard
matches zero rows only `transfer_from_inventory` fails the whole transfer —
`move_layer` carries on and still applies the shelf increment (see
`C5_counterexample`). -/
theorem C5_nonnegativity_amended (p : TransferParams) (eo : EntriesOutcome)
    (failAt : Option (Fin 3)) (s : DBState) (hq : 0 ≤ p.qty)
    (hinv : ∀ r ∈ s.inventory, 0 ≤ r.quantity)
    (hshelf : ∀ r ∈ s.shelf, 0 ≤ r.quantity) :
    (∀ r ∈ (move_layer p failAt s).1.inventory, 0 ≤ r.quantity) ∧
    (∀ r ∈ (move_layer p failAt s).1.shelf, 0 ≤ r.quantity) ∧
    (∀ r ∈ (transfer_from_inventory p eo failAt s).1.inventory, 0 ≤ r.quantity) ∧
    (∀ r ∈ (transfer_from_inventory p eo failAt s).1.shelf, 0 ≤ r.quantity) :=
  ⟨(move_layer_nonneg p failAt s hq hinv hshelf).1,
    (move_layer_nonneg p failAt s hq hinv hshelf).2,
    (transfer_from_inventory_nonneg p eo failAt s hq hinv hshelf).1,
    (transfer_from_inventory_nonneg p eo failAt s hq hinv hshelf).2⟩

/-- Concrete witness for the amended C5 at the demo state. -/
theorem C5_witness :
    (0 : Int) ≤ demoParams4.qty ∧
      ∀ r ∈ (move_layer demoParams4 none demoState10).1.inventory, 0 ≤ r.quantity :=
  ⟨by decide,
    (C5_nonnegativity_amended demoParams4 .ok none demoState10 (by decide)
      (by decide) (by decide)).1⟩

/-- Claim C10: when the audit insert into `shelfentries` raises a
`DatabaseError` with sqlstate 42501 (insufficient privilege),
`add_to_shelf` swallows the exception and still commits — the call
succeeds, the shelf upsert is applied, and no audit row is appended. -/
theorem C10_add_to_shelf_swallows_42501 (itemid exp : Nat) (qty : Int)
    (created_by : String) (cost : Nat) (locid : String) (s : DBState) :
    add_to_shelf itemid exp qty created_by cost locid (.err "42501") s =
      .ok { s with shelf := shelfUpsert itemid exp cost locid qty s.shelf } := by
  simp [add_to_shelf]

/-!
Shortage resolution (claims C6 and C9).

`ShelfHandler.resolve_shortages` (selling_area/shelf_handler.py lines
297-340) fetches the open shortages of one item ordered by `logged_at`,
walks them consuming `min(remaining, shortage_qty)` (stopping when
`remaining == 0`), issues one UPDATE per consumed row keyed on
`shortageid`, and finally runs
`DELETE FROM shelf_shortage WHERE shortage_qty = 0;` — with no itemid
filter — before returning the remaining quantity.
-/

/-- A row of the `shelf_shortage` table. -/
structure ShortageRow where
  shortageid : Nat
  itemid : Nat
  shortage_qty : Int
  resolved : Bool
  resolved_qty : Option Int
  resolved_by : Option String
  logged_at : Nat
deriving DecidableEq

/-- The fetch at the top of `resolve_shortages`:
`WHERE itemid = %s AND resolved = FALSE ORDER BY logged_at`. -/
def fetchShortages (itemid : Nat) (tbl : List ShortageRow) : List ShortageRow :=
  sortOn (fun r => r.logged_at)
    (tbl.filter fun r => decide (r.itemid = itemid ∧ r.resolved = false))

/-- The walk over the fetched rows: break once `remaining == 0`, otherwise
take `min(remaining, shortage_qty)`; record (shortageid, take) per UPDATE
issued and return the final remaining quantity. -/
def walkShortages : Int → List ShortageRow → (List (Nat × Int) × Int)
  | remaining, [] => ([], remaining)
  | remaining, r :: rs =>
    if remaining = 0 then ([], remaining)
    else
      let take := min remaining r.shortage_qty
      let rest := walkShortages (remaining - take) rs
      ((r.shortageid, take) :: rest.1, rest.2)

/-- The SET clause of the per-row UPDATE: shrink the quantity, set
`resolved = (shortage_qty - take = 0)`, accumulate `resolved_qty`, record
`resolved_by` (`resolved_at` is subsumed by the `resolved` flag here). -/
def shortageRowUpdate (user : String) (take : Int) (r : ShortageRow) :
    ShortageRow :=
  { r with shortage_qty := r.shortage_qty - take,
           resolved := decide (r.shortage_qty - take = 0),
           resolved_qty := some (r.resolved_qty.getD 0 + take),
           resolved_by := some user }

/-- One `UPDATE shelf_shortage ... WHERE shortageid = %s`. -/
def applyShortageUpdate (user : String) (sid : Nat) (take : Int)
    (tbl : List ShortageRow) : List ShortageRow :=
  tbl.map fun r => if r.shortageid = sid then shortageRowUpdate user take r else r

/-- The table after the walk's per-row UPDATEs, before the final DELETE. -/
def shortagesAfterUpdates (itemid : Nat) (qty_need : Int) (user : String)
    (tbl : List ShortageRow) : List ShortageRow :=
  (walkShortages qty_need (fetchShortages itemid tbl)).1.foldl
    (fun t u => applyShortageUpdate user u.1 u.2 t) tbl

/-- `ShelfHandler.resolve_shortages`: fetch, walk, update, then the global
`DELETE ... WHERE shortage_qty = 0`.  Returns the new table state and the
quantity still left to put on the shelf. -/
def resolve_shortages (itemid : Nat) (qty_need : Int) (user : String)
    (tbl : List ShortageRow) : List ShortageRow × Int :=
  ((shortagesAfterUpdates itemid qty_need user tbl).filter fun r =>
      decide (¬ r.shortage_qty = 0),
    (walkShortages qty_need (fetchShortages itemid tbl)).2)

/-- Total outstanding (unresolved) shortage quantity of one item. -/
def outstandingTotal (itemid : Nat) (tbl : List ShortageRow) : Int :=
  ((tbl.filter fun r => decide (r.itemid = itemid ∧ r.resolved = false)).map
    (fun r => r.shortage_qty)).sum

theorem walkShortages_remaining (remaining : Int) (rows : List ShortageRow)
    (h0 : 0 ≤ remaining) (hnn : ∀ r ∈ rows, 0 ≤ r.shortage_qty) :
    (walkShortages remaining rows).2 =
      max 0 (remaining - (rows.map (fun r => r.shortage_qty)).sum) := by
  induction rows generalizing remaining with
  | nil =>
    simp only [walkShortages, List.map_nil, List.sum_nil, sub_zero]
    exact (max_eq_right h0).symm
  | cons r rs ih =>
    have hr := hnn r (List.mem_cons_self r rs)
    have hrs : ∀ x ∈ rs, 0 ≤ x.shortage_qty :=
      fun x hx => hnn x (List.mem_cons_of_mem r hx)
    have hsum : 0 ≤ (rs.map (fun x => x.shortage_qty)).sum := by
      apply List.sum_nonneg
      intro x hx
      rcases List.mem_map.mp hx with ⟨x0, hx0, rfl⟩
      exact hrs x0 hx0
    by_cases h : remaining = 0
    · subst h
      simp only [walkShortages, if_pos rfl, List.map_cons, List.sum_cons]
      have hle : 0 - (r.shortage_qty + (rs.map (fun x => x.shortage_qty)).sum) ≤ 0 := by
        omega
      exact (max_eq_left hle).symm
    · simp only [walkShortages, if_neg h, List.map_cons, List.sum_cons]
      have htake_le : min remaining r.shortage_qty ≤ remaining := min_le_left _ _
      have h0' : 0 ≤ remaining - min remaining r.shortage_qty := by omega
      rw [ih (remaining - min remaining r.shortage_qty) h0' hrs]
      rcases le_total remaining r.shortage_qty with hcase | hcase
      · rw [min_eq_left hcase]
        have e1 : remaining - remaining -
            (rs.map (fun x => x.shortage_qty)).sum ≤ 0 := by omega
        have e2 : remaining - (r.shortage_qty +
            (rs.map (fun x => x.shortage_qty)).sum) ≤ 0 := by omega
        rw [max_eq_left e1, max_eq_left e2]
      · rw [min_eq_right hcase, sub_sub]

theorem fetchShortages_subset (itemid : Nat) (tbl : List ShortageRow) :
    ∀ r ∈ fetchShortages itemid tbl,
      r ∈ tbl ∧ r.itemid = itemid ∧ r.resolved = false := by
  intro r hr
  unfold fetchShortages at hr
  have hr2 : r ∈ tbl.filter fun x => decide (x.itemid = itemid ∧ x.resolved = false) :=
    ((sortOn_perm (fun x : ShortageRow => x.logged_at) _).mem_iff).mp hr
  have := List.of_mem_filter hr2
  simp only [decide_eq_true_eq] at this
  exact ⟨List.mem_of_mem_filter hr2, this⟩

theorem fetchShortages_sum (itemid : Nat) (tbl : List ShortageRow) :
    ((fetchShortages itemid tbl).map (fun r => r.shortage_qty)).sum =
      outstandingTotal itemid tbl := by
  unfold fetchShortages outstandingTotal
  exact List.Perm.sum_eq
    ((sortOn_perm (fun r : ShortageRow => r.logged_at) _).map
      (fun r : ShortageRow => r.shortage_qty))

theorem foldl_apply_marks (user : String) (ups : List (Nat × Int))
    (tbl : List ShortageRow) (S : List Nat)
    (hS : ∀ r ∈ tbl, r.shortageid ∈ S → (r.resolved = true ↔ r.shortage_qty = 0)) :
    ∀ r ∈ ups.foldl (fun t u => applyShortageUpdate user u.1 u.2 t) tbl,
      r.shortageid ∈ S ++ ups.map (fun u => u.1) →
        (r.resolved = true ↔ r.shortage_qty = 0) := by
  induction ups generalizing tbl S with
  | nil =>
    intro r hr hmem
    exact hS r (by simpa using hr) (by simpa using hmem)
  | cons u us ih =>
    intro r hr hmem
    have step : ∀ r2 ∈ applyShortageUpdate user u.1 u.2 tbl,
        r2.shortageid ∈ S ++ [u.1] →
          (r2.resolved = true ↔ r2.shortage_qty = 0) := by
      intro r2 hr2 hmem2
      rcases List.mem_map.mp hr2 with ⟨r0, hr0, rfl⟩
      by_cases hc : r0.shortageid = u.1
      · simp [if_pos hc, shortageRowUpdate]
      · simp only [if_neg hc]
        apply hS r0 hr0
        have hmem3 : r0.shortageid ∈ S ∨ r0.shortageid = u.1 := by
          simpa [if_neg hc] using hmem2
        rcases hmem3 with h | h
        · exact h
        · exact absurd h hc
    exact ih (applyShortageUpdate user u.1 u.2 tbl) (S ++ [u.1]) step r
      (by simpa using hr)
      (by simpa [List.append_assoc] using hmem)

/-- Claim C6: `resolve_shortages` walks the item's unresolved shortages
oldest-logged first consuming `min(remaining, outstanding)` from each;
after the per-row UPDATEs every touched row is marked resolved exactly when
its outstanding quantity reached zero, and the returned quantity equals
`max(0, quantity_available - total outstanding)` of that item. -/
theorem C6_resolve_shortages_correct (itemid : Nat) (qty_need : Int)
    (user : String) (tbl : List ShortageRow) (hq : 0 ≤ qty_need)
    (hnn : ∀ r ∈ tbl, 0 ≤ r.shortage_qty) :
    (resolve_shortages itemid qty_need user tbl).2 =
        max 0 (qty_need - outstandingTotal itemid tbl) ∧
      ∀ r ∈ shortagesAfterUpdates itemid qty_need user tbl,
        r.shortageid ∈ ((walkShortages qty_need
            (fetchShortages itemid tbl)).1.map (fun u => u.1)) →
          (r.resolved = true ↔ r.shortage_qty = 0) := by
  constructor
  · have hnn2 : ∀ r ∈ fetchShortages itemid tbl, 0 ≤ r.shortage_qty :=
      fun r hr => hnn r (fetchShortages_subset itemid tbl r hr).1
    show (walkShortages qty_need (fetchShortages itemid tbl)).2 = _
    rw [walkShortages_remaining qty_need (fetchShortages itemid tbl) hq hnn2,
      fetchShortages_sum]
  · intro r hr hmem
    exact foldl_apply_marks user _ tbl [] (by simp) r hr (by simpa using hmem)

/-- Concrete witness for C6: item 7 has shortages of 4 and 3; paying in 5
units leaves `max 0 (5 - 7) = 0`. -/
theorem C6_witness :
    (0 : Int) ≤ 5 ∧
      (∀ r ∈ [(⟨1, 7, 4, false, none, none, 5⟩ : ShortageRow),
          ⟨2, 7, 3, false, none, none, 2⟩], 0 ≤ r.shortage_qty) ∧
      (resolve_shortages 7 5 "tester"
          [⟨1, 7, 4, false, none, none, 5⟩, ⟨2, 7, 3, false, none, none, 2⟩]).2 =
        max 0 (5 - outstandingTotal 7
          [⟨1, 7, 4, false, none, none, 5⟩, ⟨2, 7, 3, false, none, none, 2⟩]) :=
  ⟨by decide, by decide,
    (C6_resolve_shortages_correct 7 5 "tester"
      [⟨1, 7, 4, false, none, none, 5⟩, ⟨2, 7, 3, false, none, none, 2⟩]
      (by decide) (by decide)).1⟩

theorem walkShortages_sids_sublist (remaining : Int) (rows : List ShortageRow) :
    ((walkShortages remaining rows).1.map (fun u => u.1)).Sublist
      (rows.map (fun r => r.shortageid)) := by
  induction rows generalizing remaining with
  | nil => simp [walkShortages]
  | cons r rs ih =>
    by_cases h : remaining = 0
    · simp [walkShortages, h]
    · simp only [walkShortages, if_neg h, List.map_cons]
      exact (ih (remaining - min remaining r.shortage_qty)).cons₂ r.shortageid

theorem mem_applyShortageUpdate_of_ne (user : String) (sid : Nat) (take : Int)
    (tbl : List ShortageRow) (r : ShortageRow) (hr : r ∈ tbl)
    (hne : ¬ r.shortageid = sid) :
    r ∈ applyShortageUpdate user sid take tbl := by
  unfold applyShortageUpdate
  have h := List.mem_map_of_mem
    (fun r2 => if r2.shortageid = sid then shortageRowUpdate user take r2 else r2) hr
  have h2 : (if r.shortageid = sid then shortageRowUpdate user take r else r) ∈
      tbl.map (fun r2 =>
        if r2.shortageid = sid then shortageRowUpdate user take r2 else r2) := h
  rwa [if_neg hne] at h2

theorem foldl_preserves_other (user : String) (ups : List (Nat × Int))
    (tbl : List ShortageRow) (r : ShortageRow) (hr : r ∈ tbl)
    (hne : ∀ u ∈ ups, ¬ u.1 = r.shortageid) :
    r ∈ ups.foldl (fun t u => applyShortageUpdate user u.1 u.2 t) tbl := by
  induction ups generalizing tbl with
  | nil => simpa using hr
  | cons u us ih =>
    rw [List.foldl_cons]
    have h1 : ¬ r.shortageid = u.1 :=
      fun h => hne u (List.mem_cons_self u us) h.symm
    exact ih (applyShortageUpdate user u.1 u.2 tbl)
      (mem_applyShortageUpdate_of_ne user u.1 u.2 tbl r hr h1)
      (fun v hv => hne v (List.mem_cons_of_mem u hv))

/-- Claim C9: after walking one item's shortages, `resolve_shortages`
issues `DELETE FROM shelf_shortage WHERE shortage_qty = 0` with no itemid
filter, so (with shortageid a key) a row belonging to a *different* item —
untouched by the walk — survives the call exactly when its quantity is
nonzero: zero-quantity shortage rows of every item are removed, not only
those of the item passed in. -/
theorem C9_global_zero_delete (itemid : Nat) (qty_need : Int) (user : String)
    (tbl : List ShortageRow)
    (hnd : (tbl.map (fun r => r.shortageid)).Nodup) :
    ∀ r ∈ tbl, r.itemid ≠ itemid →
      (r ∈ (resolve_shortages itemid qty_need user tbl).1 ↔
        ¬ r.shortage_qty = 0) := by
  intro r hr hitem
  constructor
  · intro hmem
    have h := List.of_mem_filter hmem
    simpa using h
  · intro hqty
    apply List.mem_filter.mpr
    refine ⟨?_, by simpa using hqty⟩
    have hne : ∀ u ∈ (walkShortages qty_need (fetchShortages itemid tbl)).1,
        ¬ u.1 = r.shortageid := by
      intro u hu heq
      have hu1 : u.1 ∈ (fetchShortages itemid tbl).map (fun x => x.shortageid) :=
        (walkShortages_sids_sublist qty_need (fetchShortages itemid tbl)).subset
          (List.mem_map_of_mem (fun v => v.1) hu)
      rcases List.mem_map.mp hu1 with ⟨f, hf, hfe⟩
      have hfprops := fetchShortages_subset itemid tbl f hf
      have hfr : f = r :=
        List.inj_on_of_nodup_map hnd hfprops.1 hr (by rw [hfe, heq])
      exact hitem (hfr ▸ hfprops.2.1)
    show r ∈ shortagesAfterUpdates itemid qty_need user tbl
    unfold shortagesAfterUpdates
    exact foldl_preserves_other user _ tbl r hr hne

/-- Concrete witness for C9: resolving item 7 deletes the zero-quantity
shortage row of item 9. -/
theorem C9_witness :
    (([(⟨1, 7, 4, false, none, none, 1⟩ : ShortageRow),
        ⟨2, 9, 0, false, none, none, 2⟩].map (fun r => r.shortageid)).Nodup) ∧
      (⟨2, 9, 0, false, none, none, 2⟩ : ShortageRow).itemid ≠ 7 ∧
      (⟨2, 9, 0, false, none, none, 2⟩ : ShortageRow) ∉
        (resolve_shortages 7 5 "tester"
          [⟨1, 7, 4, false, none, none, 1⟩, ⟨2, 9, 0, false, none, none, 2⟩]).1 := by
  refine ⟨by decide, by decide, ?_⟩
  intro hmem
  have h := (C9_global_zero_delete 7 5 "tester"
      [⟨1, 7, 4, false, none, none, 1⟩, ⟨2, 9, 0, false, none, none, 2⟩]
      (by decide) ⟨2, 9, 0, false, none, none, 2⟩ (by decide) (by decide)).mp hmem
  exact h (by decide)

/-!
Low-stock detection and the alert view (claims C7 and C8).

Three low-stock queries exist:

* `ShelfHandler.get_low_shelf_stock` (selling_area/shelf_handler.py lines
  214-228): `WHERE s.quantity <= %s` — each single shelf row is compared
  against the supplied global threshold; there is no per-item SUM and no
  COALESCE with the item's own threshold.
* `BarcodeShelfHandler.get_low_stock_items` in
  pages/2_low_stick_transfer.py lines 25-42: a per-item
  `SUM(quantity) GROUP BY itemid` joined to `item`, flagged by
  `totalquantity < COALESCE(i.shelfthreshold, %s)`.
* The same-named handler in pages/2_low_stock_transfer.py lines 6-22:
  identical but with `totalquantity <= COALESCE(...)`.

`ORDER BY`/`LIMIT` clauses are presentation and omitted.  The JOIN on the
grouped sub-select means only items owning at least one shelf row (of any
quantity) can be flagged.
-/

/-- An `item` row with its nullable shelf policy numbers. -/
structure Item where
  itemid : Nat
  shelfthreshold : Option Int
  shelfaverage : Option Int
deriving DecidableEq

/-- `ShelfHandler.get_low_shelf_stock`: per-row comparison against the
global threshold. -/
def get_low_shelf_stock (threshold : Int) (shelf : List ShelfRow) :
    List ShelfRow :=
  shelf.filter fun s => decide (s.quantity ≤ threshold)

/-- `SUM(quantity) ... GROUP BY itemid` for one item. -/
def itemShelfTotal (itemid : Nat) (shelf : List ShelfRow) : Int :=
  ((shelf.filter fun s => decide (s.itemid = itemid)).map
    (fun s => s.quantity)).sum

/-- `get_low_stock_items` of pages/2_low_stick_transfer.py:
the item joins the grouped shelf rows and its total is strictly below
`COALESCE(shelfthreshold, default)`. -/
def get_low_stock_items_lt (default : Int) (items : List Item)
    (shelf : List ShelfRow) : List Item :=
  items.filter fun i =>
    decide ((∃ s ∈ shelf, s.itemid = i.itemid) ∧
      itemShelfTotal i.itemid shelf < i.shelfthreshold.getD default)

/-- `get_low_stock_items` of pages/2_low_stock_transfer.py: same join, but
at-or-below the coalesced threshold. -/
def get_low_stock_items_le (default : Int) (items : List Item)
    (shelf : List ShelfRow) : List Item :=
  items.filter fun i =>
    decide ((∃ s ∈ shelf, s.itemid = i.itemid) ∧
      itemShelfTotal i.itemid shelf ≤ i.shelfthreshold.getD default)

/-- Item 1 holds 6 units on each of two shelf locations. -/
def demoShelfC7 : List ShelfRow :=
  [⟨1, 10, 100, "A", 6⟩, ⟨1, 10, 100, "B", 6⟩]

/-- Counterexample to claim C7 as stated: `ShelfHandler.get_low_shelf_stock`
flags both shelf rows of item 1 against the global threshold 10 although the
item's summed shelf quantity is 12, which is not below 10 — this detection
compares single shelf rows, not the per-item total. -/
theorem C7_counterexample :
    get_low_shelf_stock 10 demoShelfC7 = demoShelfC7 ∧
      itemShelfTotal 1 demoShelfC7 = 12 ∧
      ¬ itemShelfTotal 1 demoShelfC7 < 10 := by
  decide

/-- Claim C7 (amended): the summing detections flag an item exactly when it
has shelf rows and their per-item total is below (`2_low_stick_transfer`,
strict) or at-or-below (`2_low_stock_transfer`) the coalesced threshold;
`ShelfHandler.get_low_shelf_stock`, by contrast, compares every single
shelf row's quantity against the global threshold (see
`C7_counterexample`). -/
theorem C7_low_stock_detection_amended (default : Int) (items : List Item)
    (shelf : List ShelfRow) (i : Item) (hi : i ∈ items) :
    (i ∈ get_low_stock_items_lt default items shelf ↔
      (∃ s ∈ shelf, s.itemid = i.itemid) ∧
        itemShelfTotal i.itemid shelf < i.shelfthreshold.getD default) ∧
    (i ∈ get_low_stock_items_le default items shelf ↔
      (∃ s ∈ shelf, s.itemid = i.itemid) ∧
        itemShelfTotal i.itemid shelf ≤ i.shelfthreshold.getD default) ∧
    ∀ r ∈ get_low_shelf_stock default shelf, r.quantity ≤ default := by
  refine ⟨?_, ?_, ?_⟩
  · constructor
    · intro hmem
      have h := List.of_mem_filter hmem
      simpa using h
    · intro hcond
      exact List.mem_filter.mpr ⟨hi, by simpa using hcond⟩
  · constructor
    · intro hmem
      have h := List.of_mem_filter hmem
      simpa using h
    · intro hcond
      exact List.mem_filter.mpr ⟨hi, by simpa using hcond⟩
  · intro r hr
    have h := List.of_mem_filter hr
    simpa using h

/-- Concrete witness for the amended C7: an item with threshold 10 and a
total of 12 across two rows is not flagged by the strict summing
detection. -/
theorem C7_witness :
    ((⟨1, some 10, some 20⟩ : Item) ∈ [(⟨1, some 10, some 20⟩ : Item)]) ∧
      ((⟨1, some 10, some 20⟩ : Item) ∈
          get_low_stock_items_lt 5 [⟨1, some 10, some 20⟩] demoShelfC7 ↔
        (∃ s ∈ demoShelfC7, s.itemid = 1) ∧
          itemShelfTotal 1 demoShelfC7 < 10) :=
  ⟨by decide,
    (C7_low_stock_detection_amended 5 [⟨1, some 10, some 20⟩] demoShelfC7
      ⟨1, some 10, some 20⟩ (by decide)).1⟩

/-!
The threshold-based alert view (claim C8): pages/alerts.py builds
`shelf_qty_df` from `ShelfHandler.get_shelf_quantity_by_item`
(LEFT JOIN with `COALESCE(SUM(s.quantity), 0)`), keeps the rows with a
positive non-null `shelfthreshold` whose total is strictly below it, and
computes `needed_for_average = max(0, (shelfaverage or 0) - totalquantity)`
per kept row.
-/

/-- A row of `get_shelf_quantity_by_item`. -/
structure QtyRow where
  itemid : Nat
  totalquantity : Int
  shelfthreshold : Option Int
  shelfaverage : Option Int
deriving DecidableEq

/-- The filter of pages/alerts.py lines 47-51: `shelfthreshold` not null,
positive, and `totalquantity` strictly below it. -/
def alertsFilter (rows : List QtyRow) : List QtyRow :=
  rows.filter fun r =>
    decide (r.shelfthreshold.isSome = true ∧ 0 < r.shelfthreshold.getD 0 ∧
      r.totalquantity < r.shelfthreshold.getD 0)

/-- `needed_for_average` of pages/alerts.py lines 56-61:
`max(0, (shelfaverage or 0) - totalquantity)`. -/
def needed_for_average (r : QtyRow) : Int :=
  max 0 (r.shelfaverage.getD 0 - r.totalquantity)

/-- Claim C8: for every item kept by the threshold-based alert view, the
computed `needed_for_average` equals `max(0, shelfaverage - totalquantity)`
and is therefore never negative, also when the current shelf quantity
exceeds the average. -/
theorem C8_needed_for_average_floor (rows : List QtyRow) (r : QtyRow)
    (hr : r ∈ alertsFilter rows) :
    0 ≤ needed_for_average r ∧
      ∀ a : Int, r.shelfaverage = some a →
        needed_for_average r = max 0 (a - r.totalquantity) := by
  refine ⟨le_max_left 0 _, ?_⟩
  intro a ha
  simp [needed_for_average, ha]

/-- Concrete witness for C8: a flagged row (total 8, below its threshold
10) whose quantity exceeds its average of 5 still gets a non-negative
suggested replenishment. -/
theorem C8_witness :
    ((⟨1, 8, some 10, some 5⟩ : QtyRow) ∈
        alertsFilter [(⟨1, 8, some 10, some 5⟩ : QtyRow)]) ∧
      0 ≤ needed_for_average (⟨1, 8, some 10, some 5⟩ : QtyRow) :=
  ⟨by decide,
    (C8_needed_for_average_floor [(⟨1, 8, some 10, some 5⟩ : QtyRow)]
      ⟨1, 8, some 10, some 5⟩ (by decide)).1⟩
